import Mathlib

/-!
Verification of the python-pydrac core (`src/pydrac/__init__.py`) against its
natural-language specification.  The Python code is shallowly embedded:

* Python strings are Lean `String`s; the string methods the code uses
  (`startswith`, `strip`, `split(sep, 1)`, `splitlines`) are re-implemented
  as structurally recursive functions over the character list `String.data`,
  so that every definition is executable and kernel-reducible.
* Python exceptions are modelled by `Except PyError`; a function that can
  raise returns `Except PyError α`.
* The remote transport is abstracted: `RacAdm.r_exec`'s interaction with the
  device is modelled by a finite script of already echo-stripped response
  texts (for the retry loop) or by a response oracle `Device` mapping a
  command string to the executor's outcome (for the registry layer).
* Python `dict`s (insertion ordered, value overwritten in place) are
  modelled as association lists with the operations `alookup` / `ainsert`.
* Python `float` values (disk sizes) are modelled as `ℚ`; Python's `int()`
  truncation toward zero is `pyInt`.
-/

/-! ## Character-level string primitives (models of Python str methods) -/

/-- Model of `needle` being a prefix of a character list (Python
`str.startswith` on the underlying characters). -/
def isPrefixChars : List Char → List Char → Bool
  | [], _ => true
  | _ :: _, [] => false
  | a :: as, b :: bs => if a = b then isPrefixChars as bs else false

/-- Model of Python `s.startswith(p)`. -/
def sStartsWith (s p : String) : Bool := isPrefixChars p.data s.data

/-- Whitespace characters recognised by the model of Python `str.strip()`. -/
def isSpaceChar (c : Char) : Bool :=
  c = ' ' || c = '\t' || c = '\n' || c = '\r'

/-- Model of Python `str.strip()` on a character list. -/
def trimChars (l : List Char) : List Char :=
  ((l.dropWhile isSpaceChar).reverse.dropWhile isSpaceChar).reverse

/-- Model of Python `s.strip()`. -/
def sTrim (s : String) : String := String.mk (trimChars s.data)

/-- Model of Python `s.split(c, 1)`: split at the first occurrence of the
one-character separator; `none` when the separator does not occur (in which
context the Python code raises). -/
def splitOnceChar (c : Char) : List Char → Option (List Char × List Char)
  | [] => none
  | x :: xs =>
    if x = c then some ([], xs)
    else (splitOnceChar c xs).map (fun p => (x :: p.1, p.2))

/-- Split a character list on every occurrence of a separator character. -/
def splitOnChar (c : Char) : List Char → List (List Char)
  | [] => [[]]
  | x :: xs =>
    match splitOnChar c xs with
    | [] => [[]]
    | g :: gs => if x = c then [] :: g :: gs else (x :: g) :: gs

/-- Model of Python `s.splitlines()` for `\n`-separated text: no trailing
empty line is produced for text ending in a newline, and the empty string
yields no lines. -/
def pySplitlines (s : String) : List String :=
  if s.data = [] then []
  else
    let gs := (splitOnChar '\n' s.data).map String.mk
    if gs.getLast? = some "" then gs.dropLast else gs

/-! ## Python exceptions and dict operations -/

/-- The Python exceptions the embedded code can raise. -/
inductive PyError where
  | keyError (k : String)
  | typeError
  | attributeError
  | indexError
  | valueError
  | runtimeError (msg : String)
  deriving DecidableEq, Repr

/-- Association-list lookup, the model of Python `d[k]` / `k in d.keys()`. -/
def alookup {κ α : Type} [DecidableEq κ] : List (κ × α) → κ → Option α
  | [], _ => none
  | (k, v) :: rest, key => if k = key then some v else alookup rest key

/-- Association-list write, the model of Python `d[k] = v`: an existing key
keeps its position and gets the new value, a new key is appended (Python
dicts preserve insertion order). -/
def ainsert {κ α : Type} [DecidableEq κ] : List (κ × α) → κ → α → List (κ × α)
  | [], key, v => [(key, v)]
  | (k, w) :: rest, key, v =>
    if k = key then (k, v) :: rest else (k, w) :: ainsert rest key v

/-- Model of Python `d.update(other)`: fold `ainsert` over the new pairs. -/
def aupdate {κ α : Type} [DecidableEq κ]
    (d : List (κ × α)) (other : List (κ × α)) : List (κ × α) :=
  other.foldl (fun acc kv => ainsert acc kv.1 kv.2) d

/-! ## Command executor: `RacAdm.r_exec` (source lines 708-748)

The transport is modelled by a finite script: the list of processed response
texts (`output` after the command echo has been stripped, line 732) that the
device produces for the successive `sendline` calls.  The loop is embedded
with the script as the decreasing argument; a script too short to let the
loop exit gives `none` (the real loop would keep interacting with the
device).  `ExecOutcome` records the loop's observable effects: the final
`output` value, the remaining `retry` budget, the number of `sendline`
calls, and the total `time.sleep` units. -/

/-- The specific export/busy error code test, source line 733. -/
def isBusyResp (output : String) : Bool := sStartsWith output "ERROR: LC062 "

/-- The generic error-prefix test, source lines 736 and 743. -/
def isErrorResp (output : String) : Bool := sStartsWith output "ERROR: "

/-- Observable effects of one run of the `while retry > 0` loop of
`RacAdm.r_exec`. -/
structure ExecOutcome where
  output : String
  retryLeft : Nat
  sends : Nat
  sleepUnits : Nat
  deriving DecidableEq, Repr

/-- The `while retry > 0` loop of `RacAdm.r_exec` (source lines 724-741),
driven by the script of processed responses.  A busy response (`ERROR:
LC062 `) sleeps 10 units and loops without touching `retry`; any other
error-prefixed response decrements `retry`; a non-error response breaks out
of the loop. -/
def r_exec_loop : List String → Nat → String → Option ExecOutcome
  | _, 0, out => some { output := out, retryLeft := 0, sends := 0, sleepUnits := 0 }
  | [], _ + 1, _ => none
  | resp :: rest, retry + 1, _ =>
    if isBusyResp resp then
      (r_exec_loop rest (retry + 1) resp).map
        (fun e => { e with sends := e.sends + 1, sleepUnits := e.sleepUnits + 10 })
    else if isErrorResp resp then
      (r_exec_loop rest retry resp).map (fun e => { e with sends := e.sends + 1 })
    else
      some { output := resp, retryLeft := retry + 1, sends := 1, sleepUnits := 0 }

/-- `RacAdm.r_exec` (source lines 708-748): run the retry loop, then fail
with `RuntimeError(output)` when the final output is error-prefixed and
`ignoreerrors` is not set, and return the raw output otherwise. -/
def r_exec (script : List String) (retry : Nat) (ignoreerrors : Bool) :
    Option (Except String String × ExecOutcome) :=
  (r_exec_loop script retry "").map fun e =>
    (if isErrorResp e.output && !ignoreerrors then Except.error e.output
     else Except.ok e.output, e)

/-! ## Change-tracked registry: `RacAdmRegistry` (source lines 42-144)

The registry object is a `dict` subclass: the dict's own contents are the
committed key/value pairs loaded from the device, and the `changes`
attribute is the staged-overlay dict.  `RacAdm.r_exec` as seen from this
layer is abstracted by a response oracle mapping a command string to the
executor's outcome. -/

/-- The device seen from the registry layer: maps a command string to the
outcome of `RacAdm.r_exec` on it (raising `RuntimeError` on failure). -/
def Device : Type := String → Except PyError String

/-- State of a `RacAdmRegistry`: registry name `_reg`, the committed dict
(the `dict` superclass contents), and the staged dict `changes`. -/
structure RacAdmRegistry where
  reg : String
  committed : List (String × String)
  changes : List (String × String)
  deriving DecidableEq, Repr

/-- The `Key=Value` parsing loop of `RacAdmRegistry._output_to_dict` (source
lines 55-58): each line is stripped and split at the first `=`; a line with
no `=` makes the tuple unpacking raise `ValueError`. -/
def RacAdmRegistry.outputLinesToDict : List String → List (String × String) →
    Except PyError (List (String × String))
  | [], acc => Except.ok acc
  | line :: rest, acc =>
    match splitOnceChar '=' (trimChars line.data) with
    | none => Except.error PyError.valueError
    | some (k, v) =>
      outputLinesToDict rest (ainsert acc (String.mk k) (String.mk v))

/-- `RacAdmRegistry._output_to_dict` (source lines 52-59): skip the output
key header line, then parse the remaining `Key=Value` lines. -/
def RacAdmRegistry._output_to_dict (output : String) :
    Except PyError (List (String × String)) :=
  outputLinesToDict ((pySplitlines output).drop 1) []

/-- `RacAdmRegistry.__load` (source lines 71-74): run `get <reg>` and parse
the output into the committed dict. -/
def RacAdmRegistry.loadCommitted (dev : Device) (reg : String) :
    Except PyError (List (String × String)) := do
  let out ← dev ("get " ++ reg)
  _output_to_dict out

/-- `RacAdmRegistry.__getitem__` (source lines 76-80): staged value if
present, else committed value, else `KeyError`. -/
def RacAdmRegistry.getitem (r : RacAdmRegistry) (k : String) : Except PyError String :=
  match alookup r.changes k with
  | some v => Except.ok v
  | none =>
    match alookup r.committed k with
    | some v => Except.ok v
    | none => Except.error (PyError.keyError k)

/-- `RacAdmRegistry.__setitem__` (source lines 82-87): unknown key raises
`KeyError`; a value equal to the committed value returns without staging;
otherwise the staged dict records the value. -/
def RacAdmRegistry.setitem (r : RacAdmRegistry) (k v : String) :
    Except PyError RacAdmRegistry :=
  if (alookup r.committed k).isNone then Except.error (PyError.keyError k)
  else if alookup r.committed k = some v then Except.ok r
  else Except.ok { r with changes := ainsert r.changes k v }

/-- `RacAdmRegistry.__iter__` (source lines 92-93): iteration yields the
chain of the committed dict's `(key, value)` items followed by the staged
dict's items. -/
def RacAdmRegistry.iterItems (r : RacAdmRegistry) : List (String × String) :=
  r.committed ++ r.changes

/-- `RacAdmRegistry.get` (source lines 98-99): `super().get(k, default)` —
the committed dict only. -/
def RacAdmRegistry.get (r : RacAdmRegistry) (k default : String) : String :=
  (alookup r.committed k).getD default

/-- The `changed_values` collection loop of `RacAdmRegistry.update` (source
lines 110-116): unknown keys raise `KeyError` before anything is staged;
values equal to the committed value are skipped. -/
def RacAdmRegistry.buildChanged (committed : List (String × String)) :
    List (String × String) → List (String × String) →
    Except PyError (List (String × String))
  | [], acc => Except.ok acc
  | (k, v) :: rest, acc =>
    if (alookup committed k).isNone then Except.error (PyError.keyError k)
    else if alookup committed k = some v then buildChanged committed rest acc
    else buildChanged committed rest (ainsert acc k v)

/-- `RacAdmRegistry.update` (source lines 109-117): collect the changed
values (a `KeyError` propagates with nothing staged), then merge them into
the staged dict. -/
def RacAdmRegistry.update (r : RacAdmRegistry) (pairs : List (String × String)) :
    Except PyError RacAdmRegistry :=
  match buildChanged r.committed pairs [] with
  | Except.error e => Except.error e
  | Except.ok cv => Except.ok { r with changes := aupdate r.changes cv }

/-- `RacAdmRegistry.__contains__` (source lines 119-120): the code invokes
`__contains__` directly on an `itertools.chain` object; `chain` objects do
not define a `__contains__` attribute, so the call raises `AttributeError`
for every key and every registry. -/
def RacAdmRegistry.containsKey (_r : RacAdmRegistry) (_k : String) : Except PyError Bool :=
  Except.error PyError.attributeError

/-- `RacAdmRegistry.copy` (source lines 122-125): the call
`type(self)(self, _reg=self._reg, _racadm=self._racadm)` binds the `_reg`
parameter both positionally (to `self`) and by keyword, so Python raises
`TypeError` before any construction happens, for every registry. -/
def RacAdmRegistry.copyReg (_r : RacAdmRegistry) : Except PyError RacAdmRegistry :=
  Except.error PyError.typeError

/-- Sequential issuing of the `write` loop's commands (source lines
140-141): each command is sent in turn; an executor failure aborts the rest
of the batch.  Returns the commands actually sent (the failing one
included) together with the outcome. -/
def RacAdmRegistry.issueAll (dev : Device) : List String → List String × Except PyError Unit
  | [] => ([], Except.ok ())
  | c :: cs =>
    match dev c with
    | Except.error e => ([c], Except.error e)
    | Except.ok _ =>
      match issueAll dev cs with
      | (issued, res) => (c :: issued, res)

/-- The `set <registry>.<key> <value>` command texts issued by
`RacAdmRegistry.write` (source line 141), one per staged key in
staged-insertion order. -/
def RacAdmRegistry.setCommands (r : RacAdmRegistry) : List String :=
  r.changes.map (fun kv => "set " ++ r.reg ++ "." ++ kv.1 ++ " " ++ kv.2)

/-- `RacAdmRegistry.write` (source lines 132-144).  No staged changes → no
command, result `false`.  Otherwise one `set` command per staged key in
staged order; the first failing command aborts the remaining batch with the
registry object unchanged (`self.changes = {}` runs only after the loop).
On full success the staged dict is cleared, the committed dict is reloaded
via `get <reg>`, and the result is `true`.  A failure while reloading
leaves the staged dict cleared (and the committed dict cleared as well when
the reload output fails to parse, since `__load` clears before updating).
Returns (commands sent, resulting registry state, outcome). -/
def RacAdmRegistry.write (dev : Device) (r : RacAdmRegistry) :
    List String × RacAdmRegistry × Except PyError Bool :=
  if r.changes.isEmpty then ([], r, Except.ok false)
  else
    match issueAll dev (setCommands r) with
    | (issued, Except.error e) => (issued, r, Except.error e)
    | (issued, Except.ok _) =>
      match dev ("get " ++ r.reg) with
      | Except.error e =>
        (issued ++ ["get " ++ r.reg], { r with changes := [] }, Except.error e)
      | Except.ok out =>
        match _output_to_dict out with
        | Except.error e =>
          (issued ++ ["get " ++ r.reg],
            { r with changes := [], committed := [] }, Except.error e)
        | Except.ok m =>
          (issued ++ ["get " ++ r.reg],
            { reg := r.reg, committed := m, changes := [] }, Except.ok true)

/-! ## Write operations and the no-redundant-staging invariant -/

/-- No staged entry duplicates the committed value of its key. -/
def NoRedundantStaged (r : RacAdmRegistry) : Prop :=
  ∀ p ∈ r.changes, alookup r.committed p.1 ≠ some p.2

/-- A write operation on the registry: single-key assignment or bulk
update. -/
inductive WriteOp where
  | assign (k v : String)
  | bulk (pairs : List (String × String))

/-- Apply a write operation to the registry; a raised `KeyError` leaves the
registry unchanged, as the Python methods raise before mutating anything. -/
def applyOp (r : RacAdmRegistry) : WriteOp → RacAdmRegistry
  | WriteOp.assign k v =>
    match RacAdmRegistry.setitem r k v with
    | Except.ok r' => r'
    | Except.error _ => r
  | WriteOp.bulk pairs =>
    match RacAdmRegistry.update r pairs with
    | Except.ok r' => r'
    | Except.error _ => r

/-! ## Inventory parser: `RacAdmInventory.load` (source lines 483-515) -/

/-- Loop state of `RacAdmInventory.load`: the committed result map
(`self.data`) and the per-block variables `instance` and `data`. -/
structure InvState where
  result : List (String × List (String × String))
  instanceId : Option String
  data : Option (List (String × String))
  deriving DecidableEq, Repr

/-- Initial state of the parsing loop (source lines 492-494). -/
def invInit : InvState := { result := [], instanceId := none, data := none }

/-- Separator test of source line 497: blank after stripping, or a dashed
line. -/
def isSepLine (line : String) : Bool :=
  trimChars line.data = [] || sStartsWith line "-------"

/-- One iteration of the `for line in output.splitlines()` loop (source
lines 496-513).  On a separator, a non-empty `data` dict is committed under
the current instance id (`if data:` is false both for `None` and for the
empty dict) and both block variables are reset; an `[InstanceID: ...]` line
opens a new block (without committing the previous one); any other line is
split at the first `=`, raising `IndexError` when the line has no `=` (the
right-hand side `fields[1]` of the store is evaluated first), and otherwise
`TypeError` when no block is open (`data` is `None`, not subscriptable).
The `instance` variable is always set when `data` is, so the unreachable
`(None, data)` commit is modelled as a no-op. -/
def invStep (st : InvState) (line : String) : Except PyError InvState :=
  if isSepLine line then
    Except.ok
      { result :=
          (match st.data, st.instanceId with
           | some d, some i =>
             if d.isEmpty then st.result else ainsert st.result i d
           | _, _ => st.result),
        instanceId := none, data := none }
  else if sStartsWith line "[InstanceID: " then
    Except.ok { st with
      instanceId := some (String.mk ((line.data.drop 13).dropLast)),
      data := some [] }
  else
    match splitOnceChar '=' line.data with
    | none => Except.error PyError.indexError
    | some (k, v) =>
      match st.data with
      | none => Except.error PyError.typeError
      | some d =>
        let key := String.mk (trimChars k)
        let val := String.mk (trimChars v)
        Except.ok { st with data := some (ainsert d key val) }

/-- The parsing loop of `RacAdmInventory.load`, folded over the lines. -/
def invRun : List String → InvState → Except PyError InvState
  | [], st => Except.ok st
  | line :: rest, st =>
    match invStep st line with
    | Except.error e => Except.error e
    | Except.ok st' => invRun rest st'

/-- `RacAdmInventory.load` (source lines 483-515) as a function of the
`hwinventory` output text: run the loop over the split lines, returning the
committed result map. -/
def inventoryLoad (output : String) :
    Except PyError (List (String × List (String × String))) :=
  match invRun (pySplitlines output) invInit with
  | Except.error e => Except.error e
  | Except.ok st => Except.ok st.result

/-! ## RAID orchestrator: `RacAdmStorage` (source lines 179-473) -/

/-- Python `int()` truncation toward zero on a rational value. -/
def pyInt (q : ℚ) : ℤ := q.num.tdiv q.den

/-- A physical-disk record as produced by `_disks_to_obj`; `size` holds the
numeric value `float(record['size'].split()[0])` already extracted from the
size field (e.g. `557.75` for the text `557.75 GB`). -/
structure Disk where
  dkey : String
  controller : String
  state : String
  size : ℚ
  deriving DecidableEq, Repr

/-- The inner `for known_size in disks` loop of `pdisks_by_size` (source
lines 235-237): the running `size` is reassigned to each known bucket key
(scanned in key-insertion order) for which `int(size - known_size) < 10`
holds; the reassigned value feeds the later comparisons. -/
def bucketFit (buckets : List (ℤ × List Disk)) (q : ℚ) : ℚ :=
  buckets.foldl
    (fun s kb => if pyInt (s - (kb.1 : ℚ)) < 10 then ((kb.1 : ℚ)) else s) q

/-- `disks[int(size)].append(pdisk)` on the `defaultdict(list)` (source
line 238): append to the existing bucket, or open a new bucket at the end
of the insertion order. -/
def addToBucket : List (ℤ × List Disk) → ℤ → Disk → List (ℤ × List Disk)
  | [], key, d => [(key, [d])]
  | (k, ds) :: rest, key, d =>
    if k = key then (k, ds ++ [d]) :: rest
    else (k, ds) :: addToBucket rest key d

/-- One iteration of the outer loop of `pdisks_by_size` (source lines
231-238). -/
def bucketStep (buckets : List (ℤ × List Disk)) (d : Disk) :
    List (ℤ × List Disk) :=
  addToBucket buckets (pyInt (bucketFit buckets d.size)) d

/-- `RacAdmStorage.pdisks_by_size` (source lines 223-239): single-pass
greedy bucketing of the physical disks, as an insertion-ordered map from
integer bucket key to the list of disks appended to that bucket. -/
def pdisks_by_size (pdisks : List Disk) : List (ℤ × List Disk) :=
  pdisks.foldl bucketStep []

/-- Sorted insertion into a list of keys, used to model Python `sorted`. -/
def insertSorted (x : ℤ) : List ℤ → List ℤ
  | [] => [x]
  | y :: ys => if x ≤ y then x :: y :: ys else y :: insertSorted x ys

/-- Model of Python `sorted(self.pdisks_by_size)` on the bucket keys. -/
def sortKeys (l : List ℤ) : List ℤ := l.foldr insertSorted []

/-- The selection method argument of `select_pdisks`. -/
inductive SelMethod where
  | smallest
  | largest

/-- `RacAdmStorage.select_pdisks` (source lines 277-285): the disk list of
the bucket with the minimum (`"smallest"`) or maximum (`"largest"`) key;
`none` models the `IndexError` raised by `sorted(...)[0]` on an empty disk
set. -/
def select_pdisks (pdisks : List Disk) : SelMethod → Option (List Disk)
  | SelMethod.smallest =>
    match (sortKeys ((pdisks_by_size pdisks).map Prod.fst)).head? with
    | none => none
    | some k => alookup (pdisks_by_size pdisks) k
  | SelMethod.largest =>
    match (sortKeys ((pdisks_by_size pdisks).map Prod.fst)).getLast? with
    | none => none
    | some k => alookup (pdisks_by_size pdisks) k

/-- The disk-selection outcome of a `set_profile_default` run. -/
structure DefaultProfileLayout where
  systemDisks : List Disk
  dataDisks : List Disk
  hspare : Disk
  controller : String
  deriving DecidableEq, Repr

/-- `RacAdmStorage.set_profile_default` (source lines 400-419), reduced to
its disk-allocation outcome: `system` gets the first 2 disks of the
smallest bucket, `data` gets all but the last disk of the largest bucket,
the hotspare is the last disk of the largest bucket, and the controller
comes from the first system disk.  Remote command issuing and job
sequencing are abstracted away; `none` models an `IndexError` from the
selections (`[-1]` on an empty bucket list, `system_disks[0]`, or
`disks[0]` inside `createvd('data', 'r5', data_disks)` when `data_disks`
is empty). -/
def set_profile_default (pdisks : List Disk) : Option DefaultProfileLayout := do
  let smallest ← select_pdisks pdisks SelMethod.smallest
  let largest ← select_pdisks pdisks SelMethod.largest
  let system_disks := smallest.take 2
  let data_disks := largest.dropLast
  let hspare ← largest.getLast?
  let controller ← (system_disks.head?).map Disk.controller
  let _ ← data_disks.head?
  pure { systemDisks := system_disks, dataDisks := data_disks,
         hspare := hspare, controller := controller }

/-! ## Helper lemmas about the executor -/

theorem isPrefixChars_append {xs l : List Char} (ys : List Char)
    (h : isPrefixChars (xs ++ ys) l = true) : isPrefixChars xs l = true := by
  induction xs generalizing l with
  | nil => rfl
  | cons a as ih =>
    cases l with
    | nil => exact absurd h (by simp [isPrefixChars])
    | cons b bs =>
      rw [List.cons_append] at h
      simp only [isPrefixChars] at h ⊢
      by_cases hab : a = b
      · rw [if_pos hab] at h ⊢; exact ih h
      · rw [if_neg hab] at h; exact absurd h (by simp)

/-- The busy code is itself error-prefixed: `ERROR: LC062 ` starts with
`ERROR: `. -/
theorem busy_isError {o : String} (h : isBusyResp o = true) :
    isErrorResp o = true := by
  have hsplit : "ERROR: LC062 ".data = "ERROR: ".data ++ "LC062 ".data := by decide
  unfold isBusyResp sStartsWith at h
  unfold isErrorResp sStartsWith
  rw [hsplit] at h
  exact isPrefixChars_append _ h

theorem not_busy_of_not_error {o : String} (h : isErrorResp o = false) :
    isBusyResp o = false := by
  cases hb : isBusyResp o
  · rfl
  · exact absurd (busy_isError hb) (by simp [h])

/-- One loop step on a busy response: sleep 10, resend, budget untouched. -/
theorem r_exec_loop_cons_busy {resp : String} (rest : List String)
    (retry : Nat) (out : String) (hb : isBusyResp resp = true) :
    r_exec_loop (resp :: rest) (retry + 1) out =
      (r_exec_loop rest (retry + 1) resp).map
        (fun e => { e with sends := e.sends + 1, sleepUnits := e.sleepUnits + 10 }) := by
  rw [r_exec_loop, if_pos hb]

/-- One loop step on a generic error response: budget decremented. -/
theorem r_exec_loop_cons_error {resp : String} (rest : List String)
    (retry : Nat) (out : String)
    (herr : isErrorResp resp = true) (hbusy : isBusyResp resp = false) :
    r_exec_loop (resp :: rest) (retry + 1) out =
      (r_exec_loop rest retry resp).map (fun e => { e with sends := e.sends + 1 }) := by
  rw [r_exec_loop, if_neg (by simp [hbusy]), if_pos herr]

/-- One loop step on a non-error response: immediate break with the response
as output. -/
theorem r_exec_loop_cons_ok {resp : String} (rest : List String)
    (retry : Nat) (out : String) (hok : isErrorResp resp = false) :
    r_exec_loop (resp :: rest) (retry + 1) out =
      some { output := resp, retryLeft := retry + 1, sends := 1, sleepUnits := 0 } := by
  rw [r_exec_loop, if_neg (by simp [not_busy_of_not_error hok]), if_neg (by simp [hok])]

/-- With a script of nothing but generic (non-busy) errors, the retry loop
performs exactly `retry` sends and exits with budget 0 and the error text as
output. -/
theorem r_exec_loop_all_error (e : String) (rest : List String)
    (herr : isErrorResp e = true) (hbusy : isBusyResp e = false) :
    ∀ retry, 1 ≤ retry → ∀ out,
      r_exec_loop (List.replicate retry e ++ rest) retry out =
        some { output := e, retryLeft := 0, sends := retry, sleepUnits := 0 } := by
  intro retry
  induction retry with
  | zero => intro h; omega
  | succ r ih =>
    intro _ out
    rw [List.replicate_succ, List.cons_append, r_exec_loop_cons_error _ _ _ herr hbusy]
    cases r with
    | zero => rw [List.replicate, List.nil_append, r_exec_loop]; rfl
    | succ r' =>
      rw [ih (by omega) e]
      rfl

/-! ## Claims C1 and C2 -/

/-- Claim C1, counterexample: with a transport that always returns the
generic error `ERROR: PWD001`, `r_exec` called with `retry = 2` sends the
command exactly 2 times — not the 3 times (1 initial + 2 retries) asserted
by the claim — before failing with the `RuntimeError` carrying the raw
response text.  The `retry` parameter is the total-attempt budget of the
`while retry > 0` loop, not a count of additional retries. -/
theorem C1_counterexample :
    r_exec ["ERROR: PWD001", "ERROR: PWD001", "ERROR: PWD001"] 2 false =
      some (Except.error "ERROR: PWD001",
        { output := "ERROR: PWD001", retryLeft := 0, sends := 2, sleepUnits := 0 }) ∧
    ((r_exec ["ERROR: PWD001", "ERROR: PWD001", "ERROR: PWD001"] 2 false).map
        (fun p => p.2.sends)) ≠ some 3 := by
  constructor
  · rfl
  · decide

/-- Claim C1, amended: for every generic (non-busy) error text and every
`retry ≥ 1`, a transport that always returns that error makes `r_exec` send
the command exactly `retry` times in total (so `retry = 2` gives 2 sends)
before failing with the `RuntimeError` carrying the raw response text. -/
theorem C1_amended (e : String) (rest : List String) (retry : Nat)
    (herr : isErrorResp e = true) (hbusy : isBusyResp e = false)
    (hr : 1 ≤ retry) :
    r_exec (List.replicate retry e ++ rest) retry false =
      some (Except.error e,
        { output := e, retryLeft := 0, sends := retry, sleepUnits := 0 }) := by
  unfold r_exec
  rw [r_exec_loop_all_error e rest herr hbusy retry hr ""]
  simp [herr]

/-- Witness for `C1_amended` at the concrete error text `ERROR: X` and
`retry = 2`. -/
theorem C1_amended_witness :
    r_exec ["ERROR: X", "ERROR: X"] 2 false =
      some (Except.error "ERROR: X",
        { output := "ERROR: X", retryLeft := 0, sends := 2, sleepUnits := 0 }) := by
  have h := C1_amended "ERROR: X" [] 2 (by decide) (by decide) (by omega)
  simpa using h

/-- Claim C2: a busy response (`ERROR: LC062 `) never decrements the retry
budget — the loop sleeps the fixed 10-unit backoff and resends the same
attempt — and with a scripted transport returning the busy error twice and
then a non-error response, `r_exec` returns the success text with the retry
counter still equal to its initial value (and 3 sends, 20 sleep units). -/
theorem C2_busy_preserves_budget :
    (∀ (b : String) (rest : List String) (retry : Nat) (out : String),
        isBusyResp b = true → 1 ≤ retry →
        r_exec_loop (b :: rest) retry out =
          (r_exec_loop rest retry b).map
            (fun e => { e with sends := e.sends + 1,
                               sleepUnits := e.sleepUnits + 10 })) ∧
    (∀ (b1 b2 s : String) (rest : List String) (retry : Nat) (ign : Bool),
        isBusyResp b1 = true → isBusyResp b2 = true → isErrorResp s = false →
        1 ≤ retry →
        r_exec (b1 :: b2 :: s :: rest) retry ign =
          some (Except.ok s,
            { output := s, retryLeft := retry, sends := 3, sleepUnits := 20 })) := by
  constructor
  · intro b rest retry out hb hr
    obtain ⟨r, rfl⟩ : ∃ r, retry = r + 1 := ⟨retry - 1, by omega⟩
    exact r_exec_loop_cons_busy rest r out hb
  · intro b1 b2 s rest retry ign hb1 hb2 hs hr
    obtain ⟨r, rfl⟩ : ∃ r, retry = r + 1 := ⟨retry - 1, by omega⟩
    unfold r_exec
    rw [r_exec_loop_cons_busy _ _ _ hb1, r_exec_loop_cons_busy _ _ _ hb2,
      r_exec_loop_cons_ok _ _ _ hs]
    simp [hs]

/-- Witness for `C2_busy_preserves_budget` on a concrete busy-busy-success
script with initial retry budget 3. -/
theorem C2_witness :
    r_exec ["ERROR: LC062 busy", "ERROR: LC062 busy", "done"] 3 false =
      some (Except.ok "done",
        { output := "done", retryLeft := 3, sends := 3, sleepUnits := 20 }) :=
  C2_busy_preserves_budget.2 "ERROR: LC062 busy" "ERROR: LC062 busy" "done" [] 3
    false (by decide) (by decide) (by decide) (by omega)

/-! ## Helper lemmas about the registry -/

theorem mem_ainsert {κ α : Type} [DecidableEq κ] {l : List (κ × α)}
    {k : κ} {v : α} {p : κ × α} (h : p ∈ ainsert l k v) :
    p = (k, v) ∨ p ∈ l := by
  induction l with
  | nil => simpa [ainsert] using h
  | cons q rest ih =>
    obtain ⟨qk, qv⟩ := q
    by_cases hk : qk = k
    · rw [ainsert, if_pos hk] at h
      rcases List.mem_cons.mp h with h | h
      · exact Or.inl (by rw [h, hk])
      · exact Or.inr (List.mem_cons_of_mem _ h)
    · rw [ainsert, if_neg hk] at h
      rcases List.mem_cons.mp h with h | h
      · exact Or.inr (by rw [h]; exact List.mem_cons_self _ _)
      · rcases ih h with h' | h'
        · exact Or.inl h'
        · exact Or.inr (List.mem_cons_of_mem _ h')

theorem mem_aupdate {κ α : Type} [DecidableEq κ] {l cv : List (κ × α)}
    {p : κ × α} (h : p ∈ aupdate l cv) : p ∈ l ∨ p ∈ cv := by
  induction cv generalizing l with
  | nil => exact Or.inl h
  | cons q rest ih =>
    rw [aupdate, List.foldl_cons] at h
    rcases ih h with h' | h'
    · rcases mem_ainsert h' with h'' | h''
      · exact Or.inr (by rw [h'']; exact List.mem_cons_self _ _)
      · exact Or.inl h''
    · exact Or.inr (List.mem_cons_of_mem _ h')

/-- Every pair collected by `buildChanged` differs from the committed value
of its key (assuming the accumulator already does). -/
theorem buildChanged_sound {committed : List (String × String)} :
    ∀ {pairs acc cv : List (String × String)},
      (∀ p ∈ acc, alookup committed p.1 ≠ some p.2) →
      RacAdmRegistry.buildChanged committed pairs acc = Except.ok cv →
      ∀ p ∈ cv, alookup committed p.1 ≠ some p.2 := by
  intro pairs
  induction pairs with
  | nil =>
    intro acc cv hacc hbc
    rw [RacAdmRegistry.buildChanged] at hbc
    cases hbc
    exact hacc
  | cons q rest ih =>
    intro acc cv hacc hbc
    obtain ⟨k, v⟩ := q
    rw [RacAdmRegistry.buildChanged] at hbc
    by_cases h1 : (alookup committed k).isNone
    · rw [if_pos h1] at hbc; cases hbc
    · rw [if_neg h1] at hbc
      by_cases h2 : alookup committed k = some v
      · rw [if_pos h2] at hbc
        exact ih hacc hbc
      · rw [if_neg h2] at hbc
        refine ih ?_ hbc
        intro p hp
        rcases mem_ainsert hp with h' | h'
        · rw [h']; exact h2
        · exact hacc p h'

/-! ## Claims C5, C6, C8, C10 -/

/-- Claim C5 (code defect, concrete evaluation): for the registry with
committed `A=1` and staged `A=2`, the membership test raises
`AttributeError` (`itertools.chain` objects have no `__contains__`
attribute) instead of reporting that `A` is a key, and iteration yields the
committed and staged `(key, value)` item pairs — the key `A` appearing
twice, with the committed value not shadowed — rather than the union of the
key sets with staged precedence. -/
theorem C5_contains_iter_defect :
    RacAdmRegistry.containsKey
        { reg := "idrac.ipv4", committed := [("A", "1")], changes := [("A", "2")] }
        "A" = Except.error PyError.attributeError ∧
    RacAdmRegistry.iterItems
        { reg := "idrac.ipv4", committed := [("A", "1")], changes := [("A", "2")] } =
      [("A", "1"), ("A", "2")] :=
  ⟨rfl, rfl⟩

theorem applyOp_preserves {r : RacAdmRegistry}
    (h : NoRedundantStaged r) (op : WriteOp) :
    NoRedundantStaged (applyOp r op) := by
  cases op with
  | assign k v =>
    show NoRedundantStaged (match RacAdmRegistry.setitem r k v with
      | Except.ok r' => r' | Except.error _ => r)
    rw [RacAdmRegistry.setitem]
    by_cases h1 : (alookup r.committed k).isNone
    · rw [if_pos h1]; exact h
    · rw [if_neg h1]
      by_cases h2 : alookup r.committed k = some v
      · rw [if_pos h2]; exact h
      · rw [if_neg h2]
        intro p hp
        rcases mem_ainsert hp with h' | h'
        · rw [h']; exact h2
        · exact h p h'
  | bulk pairs =>
    show NoRedundantStaged (match RacAdmRegistry.update r pairs with
      | Except.ok r' => r' | Except.error _ => r)
    rw [RacAdmRegistry.update]
    cases hbc : RacAdmRegistry.buildChanged r.committed pairs [] with
    | error e => exact h
    | ok cv =>
      have hcv : ∀ p ∈ cv, alookup r.committed p.1 ≠ some p.2 :=
        buildChanged_sound (by intro p hp; cases hp) hbc
      intro p hp
      rcases mem_aupdate hp with h' | h'
      · exact h p h'
      · exact hcv p h'

/-- Claim C6: writing (by single-key assignment or bulk update) a value
equal to the key's current committed value stages nothing — the registry is
returned unchanged — and consequently, starting from a registry with no
redundant staged entry, after any sequence of write operations no staged
entry has a value equal to the committed value of the same key. -/
theorem C6_no_redundant_staging (r : RacAdmRegistry) :
    (∀ k v, alookup r.committed k = some v →
      RacAdmRegistry.setitem r k v = Except.ok r) ∧
    (∀ k v, alookup r.committed k = some v →
      RacAdmRegistry.update r [(k, v)] = Except.ok r) ∧
    (NoRedundantStaged r → ∀ ops : List WriteOp,
      NoRedundantStaged (ops.foldl applyOp r)) := by
  refine ⟨?_, ?_, ?_⟩
  · intro k v hkv
    rw [RacAdmRegistry.setitem, if_neg (by simp [hkv]), if_pos hkv]
  · intro k v hkv
    rw [RacAdmRegistry.update, RacAdmRegistry.buildChanged,
      if_neg (by simp [hkv]), if_pos hkv, RacAdmRegistry.buildChanged]
    rfl
  · intro h ops
    induction ops generalizing r with
    | nil => exact h
    | cons op rest ih =>
      rw [List.foldl_cons]
      exact ih _ (applyOp_preserves h op)

/-- Witness for `C6_no_redundant_staging`: a concrete registry where a
same-as-committed write is a no-op and a sequence of writes preserves the
invariant. -/
theorem C6_witness :
    (RacAdmRegistry.setitem
        { reg := "BIOS.BiosBootSettings", committed := [("BootMode", "Uefi")],
          changes := [] } "BootMode" "Uefi" =
      Except.ok
        { reg := "BIOS.BiosBootSettings", committed := [("BootMode", "Uefi")],
          changes := [] }) ∧
    NoRedundantStaged
      (List.foldl applyOp
        { reg := "BIOS.BiosBootSettings", committed := [("BootMode", "Uefi")],
          changes := [] }
        [WriteOp.assign "BootMode" "Bios", WriteOp.assign "BootMode" "Uefi"]) := by
  refine ⟨?_, ?_⟩
  · exact (C6_no_redundant_staging _).1 "BootMode" "Uefi" rfl
  · refine (C6_no_redundant_staging _).2.2 ?_ _
    intro p hp
    cases hp

/-- Claim C8 (code defect, concrete evaluation): `copy()` raises
`TypeError` for every registry — the constructor call passes `_reg` both
positionally and by keyword — so no independent copy is ever produced. -/
theorem C8_copy_defect :
    RacAdmRegistry.copyReg
        { reg := "idrac.ipv4", committed := [("A", "1")], changes := [] } =
      Except.error PyError.typeError :=
  rfl

/-- Claim C10: `get(k, default)` consults only the committed map — it
returns the committed value of `k`, or the default when `k` is not a
committed key, even when a different staged value for `k` exists — unlike
indexed access, which returns the staged value when present. -/
theorem C10_get_committed_only (r : RacAdmRegistry) (k d : String) :
    (∀ w, alookup r.committed k = some w → RacAdmRegistry.get r k d = w) ∧
    (alookup r.committed k = none → RacAdmRegistry.get r k d = d) ∧
    (∀ v, alookup r.changes k = some v →
      RacAdmRegistry.getitem r k = Except.ok v) := by
  refine ⟨?_, ?_, ?_⟩
  · intro w hw; rw [RacAdmRegistry.get, hw]; rfl
  · intro hn; rw [RacAdmRegistry.get, hn]; rfl
  · intro v hv; rw [RacAdmRegistry.getitem, hv]

/-- Witness for `C10_get_committed_only` on a registry staging `A=2` over
committed `A=1`. -/
theorem C10_witness :
    RacAdmRegistry.get
        { reg := "idrac.ipv4", committed := [("A", "1")], changes := [("A", "2")] }
        "A" "dflt" = "1" ∧
    RacAdmRegistry.getitem
        { reg := "idrac.ipv4", committed := [("A", "1")], changes := [("A", "2")] }
        "A" = Except.ok "2" :=
  ⟨(C10_get_committed_only _ "A" "dflt").1 "1" rfl,
   (C10_get_committed_only _ "A" "dflt").2.2 "2" rfl⟩

/-! ## Claim C7: commit semantics of `write()` -/

theorem issueAll_all_ok (dev : Device) :
    ∀ cs : List String, (∀ c ∈ cs, ∃ o, dev c = Except.ok o) →
      RacAdmRegistry.issueAll dev cs = (cs, Except.ok ()) := by
  intro cs
  induction cs with
  | nil => intro _; rfl
  | cons c rest ih =>
    intro hok
    obtain ⟨o, ho⟩ := hok c (List.mem_cons_self _ _)
    rw [RacAdmRegistry.issueAll, ho,
      ih (fun c' hc' => hok c' (List.mem_cons_of_mem _ hc'))]

theorem issueAll_first_error (dev : Device) {c : String} {err : PyError}
    (hc : dev c = Except.error err) :
    ∀ pre : List String, (∀ c' ∈ pre, ∃ o, dev c' = Except.ok o) →
      ∀ post : List String,
        RacAdmRegistry.issueAll dev (pre ++ c :: post) =
          (pre ++ [c], Except.error err) := by
  intro pre
  induction pre with
  | nil =>
    intro _ post
    rw [List.nil_append, RacAdmRegistry.issueAll, hc]
    rfl
  | cons p rest ih =>
    intro hok post
    obtain ⟨o, ho⟩ := hok p (List.mem_cons_self _ _)
    rw [List.cons_append, RacAdmRegistry.issueAll, ho,
      ih (fun c' hc' => hok c' (List.mem_cons_of_mem _ hc')) post]
    rfl

/-- Claim C7: `write()` with an empty staged map returns `False` and issues
no remote command.  With a non-empty staged map it issues one
`set <registry>.<key> <value>` command per staged key in staged-insertion
order; on full success (all `set` commands and the reload succeed) it
clears the staged map, reloads the committed map from the device, and
returns `True`; a failing `set` command aborts the remaining batch — only
the commands up to and including the failing one are sent, already-applied
writes are not rolled back, and the registry object is left unchanged. -/
theorem C7_write_semantics (dev : Device) (r : RacAdmRegistry) :
    (r.changes = [] → RacAdmRegistry.write dev r = ([], r, Except.ok false)) ∧
    (r.changes ≠ [] →
      (∀ out m, (∀ c ∈ RacAdmRegistry.setCommands r, ∃ o, dev c = Except.ok o) →
        dev ("get " ++ r.reg) = Except.ok out →
        RacAdmRegistry._output_to_dict out = Except.ok m →
        RacAdmRegistry.write dev r =
          (RacAdmRegistry.setCommands r ++ ["get " ++ r.reg],
            { reg := r.reg, committed := m, changes := [] }, Except.ok true)) ∧
      (∀ pre c post err, RacAdmRegistry.setCommands r = pre ++ c :: post →
        (∀ c' ∈ pre, ∃ o, dev c' = Except.ok o) →
        dev c = Except.error err →
        RacAdmRegistry.write dev r = (pre ++ [c], r, Except.error err))) := by
  constructor
  · intro hempty
    rw [RacAdmRegistry.write, if_pos (by simp [hempty])]
  · intro hne
    have hnotempty : r.changes.isEmpty = false := by
      simpa [List.isEmpty_iff] using hne
    constructor
    · intro out m hok hget hparse
      rw [RacAdmRegistry.write, if_neg (by simp [hnotempty]),
        issueAll_all_ok dev _ hok, hget]
      simp [hparse]
    · intro pre c post err hsplit hok hc
      rw [RacAdmRegistry.write, if_neg (by simp [hnotempty]), hsplit,
        issueAll_first_error dev hc pre hok post]

/-- Witness for `C7_write_semantics`: a concrete registry with one staged
change against a device that accepts the `set` command and serves the
reload. -/
theorem C7_witness :
    RacAdmRegistry.write
        (fun cmd => if cmd = "get idrac.ipv4" then Except.ok "Keys=Hdr\nA=2"
                    else Except.ok "")
        { reg := "idrac.ipv4", committed := [("A", "1")], changes := [("A", "2")] } =
      (["set idrac.ipv4.A 2", "get idrac.ipv4"],
        { reg := "idrac.ipv4", committed := [("A", "2")], changes := [] },
        Except.ok true) := by
  refine ((C7_write_semantics _ _).2 (by decide)).1 "Keys=Hdr\nA=2" [("A", "2")]
    ?_ (by rfl) (by rfl)
  intro c hc
  have : c = "set idrac.ipv4.A 2" := by
    simpa [RacAdmRegistry.setCommands] using hc
  exact ⟨"", by rw [this]; rfl⟩

/-! ## Helper lemmas about the inventory parser -/

theorem invRun_append (M : List String) :
    ∀ (L : List String) (st : InvState),
      invRun (L ++ M) st =
        match invRun L st with
        | Except.error e => Except.error e
        | Except.ok st' => invRun M st' := by
  intro L
  induction L with
  | nil => intro st; rfl
  | cons l rest ih =>
    intro st
    rw [List.cons_append, invRun, invRun]
    cases invStep st l with
    | error e => rfl
    | ok st' => exact ih st'

/-- A non-separator line never changes the committed result map. -/
theorem invStep_result_of_not_sep {st : InvState} {line : String}
    {st' : InvState} (hsep : isSepLine line = false)
    (h : invStep st line = Except.ok st') : st'.result = st.result := by
  rw [invStep, if_neg (by simp [hsep])] at h
  by_cases hinst : sStartsWith line "[InstanceID: " = true
  · rw [if_pos hinst] at h
    cases h
    rfl
  · rw [if_neg hinst] at h
    cases hsp : splitOnceChar '=' line.data with
    | none => rw [hsp] at h; cases h
    | some kv =>
      rw [hsp] at h
      cases hd : st.data with
      | none => rw [hd] at h; cases h
      | some d => rw [hd] at h; cases h; rfl

/-- A non-separator line keeps a block open: if `data` was a dict, it stays
a dict. -/
theorem invStep_data_of_not_sep {st : InvState} {line : String}
    {st' : InvState} (hsep : isSepLine line = false)
    (h : invStep st line = Except.ok st') :
    st.data.isSome = true → st'.data.isSome = true := by
  intro hsome
  rw [invStep, if_neg (by simp [hsep])] at h
  by_cases hinst : sStartsWith line "[InstanceID: " = true
  · rw [if_pos hinst] at h; cases h; rfl
  · rw [if_neg hinst] at h
    cases hsp : splitOnceChar '=' line.data with
    | none => rw [hsp] at h; cases h
    | some kv =>
      rw [hsp] at h
      cases hd : st.data with
      | none => rw [hd] at hsome; cases hsome
      | some d => rw [hd] at h; cases h; rfl

/-- An `[InstanceID: ...]` line is not a separator line. -/
theorem instLine_not_sep {l : String}
    (h : sStartsWith l "[InstanceID: " = true) : isSepLine l = false := by
  unfold sStartsWith at h
  have hdata : "[InstanceID: ".data = '[' :: "InstanceID: ".data := by decide
  rw [hdata] at h
  cases hl : l.data with
  | nil => rw [hl] at h; exact absurd h (by simp [isPrefixChars])
  | cons c cs =>
    rw [hl] at h
    rw [isPrefixChars] at h
    by_cases hc : '[' = c
    · subst hc
      unfold isSepLine
      have h1 : trimChars l.data ≠ [] := by
        rw [hl]
        unfold trimChars
        intro habs
        have h2 := List.dropWhile_eq_nil_iff.mp (by
          have := congrArg List.reverse habs
          rwa [List.reverse_reverse, List.reverse_nil] at this)
        have h3 : '[' ∈ ('[' :: cs).dropWhile isSpaceChar := by
          rw [List.dropWhile_cons_of_neg (by decide)]
          exact List.mem_cons_self _ _
        have h4 := h2 '[' (by simpa using h3)
        exact absurd h4 (by decide)
      have h5 : sStartsWith l "-------" = false := by
        unfold sStartsWith
        rw [hl]
        have hdash : "-------".data = '-' :: "------".data := by decide
        rw [hdash, isPrefixChars, if_neg (by decide)]
      simp [h1, h5]
    · rw [if_neg hc] at h
      cases h

/-- Lines that are not separators and are either instance headers or
contain an `=` are consumed without error, without touching the result map,
provided a block is open. -/
theorem invRun_no_commit :
    ∀ (lines : List String) (st : InvState),
      st.data.isSome = true →
      (∀ l ∈ lines, isSepLine l = false ∧
        (sStartsWith l "[InstanceID: " = true ∨
          (splitOnceChar '=' l.data).isSome = true)) →
      ∃ st', invRun lines st = Except.ok st' ∧ st'.result = st.result := by
  intro lines
  induction lines with
  | nil => intro st _ _; exact ⟨st, rfl, rfl⟩
  | cons l rest ih =>
    intro st hsome hl
    obtain ⟨hsep, hkind⟩ := hl l (List.mem_cons_self _ _)
    have hstep : ∃ st1, invStep st l = Except.ok st1 := by
      rw [invStep, if_neg (by simp [hsep])]
      rcases hkind with hinst | heq
      · rw [if_pos hinst]; exact ⟨_, rfl⟩
      · by_cases hinst : sStartsWith l "[InstanceID: " = true
        · rw [if_pos hinst]; exact ⟨_, rfl⟩
        · rw [if_neg hinst]
          cases hsp : splitOnceChar '=' l.data with
          | none => rw [hsp] at heq; cases heq
          | some kv =>
            cases hd : st.data with
            | none => rw [hd] at hsome; cases hsome
            | some d => exact ⟨_, rfl⟩
    obtain ⟨st1, hst1⟩ := hstep
    obtain ⟨st', hrun, hres⟩ := ih st1 (invStep_data_of_not_sep hsep hst1 hsome)
      (fun l' hl' => hl l' (List.mem_cons_of_mem _ hl'))
    refine ⟨st', ?_, ?_⟩
    · rw [invRun, hst1]; exact hrun
    · rw [hres, invStep_result_of_not_sep hsep hst1]

/-! ## Claim C9: commit-on-separator semantics of the inventory parser -/

/-- Claim C9: the inventory parser commits an `[InstanceID: ...]` block to
the result map only when a terminating blank line or dashed separator line
is observed after the block's `Key = Value` lines — a run containing no
separator line never changes the committed result map — and in particular a
trailing block (header plus data lines) not followed by such a separator is
absent from the returned result. -/
theorem C9_trailing_block_dropped :
    (∀ (lines : List String) (st st' : InvState),
        (∀ l ∈ lines, isSepLine l = false) →
        invRun lines st = Except.ok st' → st'.result = st.result) ∧
    (∀ (out : String) (L : List String) (instLine : String)
        (kvs : List String) (stL : InvState),
        pySplitlines out = L ++ instLine :: kvs →
        sStartsWith instLine "[InstanceID: " = true →
        (∀ l ∈ kvs, isSepLine l = false ∧
          (sStartsWith l "[InstanceID: " = true ∨
            (splitOnceChar '=' l.data).isSome = true)) →
        invRun L invInit = Except.ok stL →
        inventoryLoad out = Except.ok stL.result) := by
  constructor
  · intro lines
    induction lines with
    | nil =>
      intro st st' _ h
      cases h
      rfl
    | cons l rest ih =>
      intro st st' hsep h
      rw [invRun] at h
      cases hstep : invStep st l with
      | error e => rw [hstep] at h; cases h
      | ok st1 =>
        rw [hstep] at h
        rw [ih st1 st' (fun l' hl' => hsep l' (List.mem_cons_of_mem _ hl')) h,
          invStep_result_of_not_sep (hsep l (List.mem_cons_self _ _)) hstep]
  · intro out L instLine kvs stL hsplit hinst hkvs hL
    have hstep : invStep stL instLine =
        Except.ok { stL with
          instanceId := some (String.mk ((instLine.data.drop 13).dropLast)),
          data := some [] } := by
      rw [invStep, if_neg (by simp [instLine_not_sep hinst]), if_pos hinst]
    obtain ⟨st', hrun, hres⟩ := invRun_no_commit kvs
      { stL with
        instanceId := some (String.mk ((instLine.data.drop 13).dropLast)),
        data := some [] } (by rfl) hkvs
    have hwhole : invRun (pySplitlines out) invInit = Except.ok st' := by
      rw [hsplit, invRun_append (instLine :: kvs) L invInit, hL]
      show invRun (instLine :: kvs) stL = Except.ok st'
      rw [invRun, hstep]
      exact hrun
    rw [inventoryLoad, hwhole]
    exact congrArg Except.ok hres

/-- Witness for `C9_trailing_block_dropped`: a sole trailing block with no
terminating separator yields an empty inventory result. -/
theorem C9_witness :
    inventoryLoad "[InstanceID: DISK.1]\nKey = Val" = Except.ok [] := by
  refine C9_trailing_block_dropped.2 "[InstanceID: DISK.1]\nKey = Val" []
    "[InstanceID: DISK.1]" ["Key = Val"] invInit (by rfl) (by rfl) ?_ (by rfl)
  intro l hl
  have hleq : l = "Key = Val" := List.mem_singleton.mp hl
  subst hleq
  exact ⟨by decide, Or.inr (by rfl)⟩

/-! ## Arithmetic lemmas about `pyInt` -/

theorem pyInt_intCast (n : ℤ) : pyInt ((n : ℤ) : ℚ) = n := by
  unfold pyInt
  rw [Rat.num_intCast, Rat.den_intCast, Nat.cast_one, Int.tdiv_one]

theorem pyInt_sub_intCast (a b : ℤ) : pyInt ((a : ℚ) - (b : ℚ)) = a - b := by
  rw [show ((a : ℚ) - (b : ℚ)) = (((a - b : ℤ)) : ℚ) by push_cast; ring,
    pyInt_intCast]

theorem pyInt_eq_floor {q : ℚ} (h : 0 ≤ q) : pyInt q = ⌊q⌋ := by
  unfold pyInt
  rw [Rat.floor_def]
  exact Int.tdiv_eq_ediv (Rat.num_nonneg.mpr h) (Int.natCast_nonneg _)

theorem pyInt_neg (q : ℚ) : pyInt (-q) = -(pyInt q) := by
  unfold pyInt
  rw [Rat.neg_num, Rat.neg_den, Int.neg_tdiv]

theorem pyInt_eq_ceil {q : ℚ} (h : q ≤ 0) : pyInt q = ⌈q⌉ := by
  have h1 : pyInt q = -(pyInt (-q)) := by rw [pyInt_neg, neg_neg]
  rw [h1, pyInt_eq_floor (by linarith : (0 : ℚ) ≤ -q), Int.floor_neg, neg_neg]

theorem floor_le_pyInt (q : ℚ) : ⌊q⌋ ≤ pyInt q := by
  rcases le_or_lt 0 q with h | h
  · rw [pyInt_eq_floor h]
  · rw [pyInt_eq_ceil h.le]
    exact Int.floor_le_ceil q

/-- The code's comparison `int(size - known_size) < 10` is equivalent to the
plain rational comparison `size - known_size < 10` — also for negative
differences, where `int()` truncates up toward zero. -/
theorem pyInt_lt_ten (q : ℚ) : pyInt q < 10 ↔ q < 10 := by
  rcases le_or_lt 0 q with h | h
  · rw [pyInt_eq_floor h, Int.floor_lt]
    norm_num
  · constructor
    · intro _
      linarith
    · intro _
      rw [pyInt_eq_ceil h.le]
      have hc : ⌈q⌉ ≤ 0 := Int.ceil_le.mpr (by exact_mod_cast h.le)
      omega

theorem le_pyInt {n : ℤ} {q : ℚ} (h : (n : ℚ) ≤ q) : n ≤ pyInt q :=
  le_trans (Int.le_floor.mpr h) (floor_le_pyInt q)

/-! ## Helper lemmas about the bucketing fold -/

/-- When every known anchor is at least 10 below the size, the inner loop
leaves the size unchanged. -/
theorem bucketFit_of_far (q : ℚ) :
    ∀ bs : List (ℤ × List Disk),
      (∀ k ∈ bs.map Prod.fst, (k : ℚ) + 10 ≤ q) → bucketFit bs q = q := by
  intro bs
  induction bs with
  | nil => intro _; rfl
  | cons kb rest ih =>
    intro h
    have hk := h kb.1 (by simp)
    rw [bucketFit, List.foldl_cons, if_neg (by rw [pyInt_lt_ten]; linarith)]
    exact ih fun k hkm => h k (by simp [hkm])

/-- Appending a disk under a fresh key opens a new bucket at the end. -/
theorem addToBucket_fresh (d : Disk) :
    ∀ (bs : List (ℤ × List Disk)) (key : ℤ),
      (∀ k ∈ bs.map Prod.fst, key ≠ k) →
      addToBucket bs key d = bs ++ [(key, [d])] := by
  intro bs
  induction bs with
  | nil => intro key _; rfl
  | cons kb rest ih =>
    intro key h
    obtain ⟨k0, ds0⟩ := kb
    rw [addToBucket, if_neg (fun he => h k0 (by simp) he.symm), List.cons_append,
      ih key (fun k hkm => h k (by simp [hkm]))]

/-- Appending a disk under an existing key leaves the key sequence
unchanged. -/
theorem addToBucket_keys (d : Disk) :
    ∀ (bs : List (ℤ × List Disk)) (key : ℤ),
      key ∈ bs.map Prod.fst →
      (addToBucket bs key d).map Prod.fst = bs.map Prod.fst := by
  intro bs
  induction bs with
  | nil => intro key h; cases h
  | cons kb rest ih =>
    intro key h
    obtain ⟨k0, ds0⟩ := kb
    by_cases hk : k0 = key
    · rw [addToBucket, if_pos hk]
      simp
    · rw [addToBucket, if_neg hk]
      have hmem : key ∈ rest.map Prod.fst := by
        rcases (by simpa using h : key = k0 ∨ ∃ x, (key, x) ∈ rest) with
          h' | ⟨x, hx⟩
        · exact absurd h'.symm hk
        · exact List.mem_map.mpr ⟨(key, x), hx, rfl⟩
      simp [ih key hmem]

/-- Once the running size has been reassigned to a known key, the rest of
the inner loop keeps it equal to some key of the allowed set. -/
theorem bucketFit_from_key (K : List ℤ) :
    ∀ bs : List (ℤ × List Disk),
      (∀ k ∈ bs.map Prod.fst, k ∈ K) →
      ∀ k0 ∈ K, ∃ k' ∈ K, bucketFit bs ((k0 : ℤ) : ℚ) = ((k' : ℤ) : ℚ) := by
  intro bs
  induction bs with
  | nil => intro _ k0 hk0; exact ⟨k0, hk0, rfl⟩
  | cons kb rest ih =>
    intro hsub k0 hk0
    have hsub' : ∀ k ∈ rest.map Prod.fst, k ∈ K := fun k hk =>
      hsub k (by simp [hk])
    rw [bucketFit, List.foldl_cons]
    by_cases hcond : pyInt ((k0 : ℚ) - (kb.1 : ℚ)) < 10
    · rw [if_pos hcond]
      exact ih hsub' kb.1 (hsub kb.1 (by simp))
    · rw [if_neg hcond]
      exact ih hsub' k0 hk0

/-- If some known anchor admits the size (`size < anchor + 10`), the inner
loop ends on (the cast of) one of the known keys. -/
theorem bucketFit_join (q : ℚ) :
    ∀ bs : List (ℤ × List Disk),
      (∃ k ∈ bs.map Prod.fst, q < (k : ℚ) + 10) →
      ∃ k' ∈ bs.map Prod.fst, bucketFit bs q = ((k' : ℤ) : ℚ) := by
  intro bs
  induction bs with
  | nil => intro h; exact absurd h (by simp)
  | cons kb rest ih =>
    intro h
    by_cases hcond : pyInt (q - (kb.1 : ℚ)) < 10
    · rw [bucketFit, List.foldl_cons, if_pos hcond]
      obtain ⟨k', hk', heq⟩ :=
        bucketFit_from_key ((kb :: rest).map Prod.fst) rest
          (fun k hk => by simp [hk]) kb.1 (by simp)
      exact ⟨k', hk', heq⟩
    · rw [bucketFit, List.foldl_cons, if_neg hcond]
      obtain ⟨k, hkmem, hklt⟩ := h
      rcases (by simpa using hkmem : k = kb.1 ∨ k ∈ rest.map Prod.fst) with
        h' | h'
      · subst h'
        exact absurd ((pyInt_lt_ten _).mpr (by linarith)) hcond
      · obtain ⟨k', hk', heq⟩ := ih ⟨k, h', hklt⟩
        exact ⟨k', by simp [hk'], heq⟩

/-! ## Claim C4: the bucketing rule -/

/-- Claim C4, counterexample: with disks of sizes 100 and 50 (in that
order), the second disk joins the bucket anchored at 100 even though the
absolute size difference is 50 — the code's test `int(size - known_size) <
10` is signed, and `int(50 - 100) = -50 < 10` holds.  The claim's
"absolute difference below 10" rule would demand a new bucket keyed 50. -/
theorem C4_counterexample :
    pdisks_by_size [⟨"pdA", "c0", "Ready", ((100 : ℤ) : ℚ)⟩,
        ⟨"pdB", "c0", "Ready", ((50 : ℤ) : ℚ)⟩] =
      [(100, [⟨"pdA", "c0", "Ready", ((100 : ℤ) : ℚ)⟩,
              ⟨"pdB", "c0", "Ready", ((50 : ℤ) : ℚ)⟩])] ∧
    (10 : ℚ) ≤ |((50 : ℤ) : ℚ) - ((100 : ℤ) : ℚ)| := by
  constructor
  · simp +decide only [pdisks_by_size, List.foldl_cons, List.foldl_nil,
      bucketStep, bucketFit, addToBucket, pyInt_intCast, pyInt_sub_intCast,
      List.singleton_append]
  · rw [show (((50 : ℤ) : ℚ) - ((100 : ℤ) : ℚ)) = -50 by norm_num, abs_neg,
      abs_of_nonneg (by norm_num)]
    norm_num

/-- Claim C4, amended: `pdisks_by_size` performs single-pass greedy
bucketing in which a disk joins an existing bucket if and only if its
numeric size is less than 10 units above some existing bucket anchor — a
signed, not absolute, criterion, under which every disk smaller than an
anchor also matches that anchor; the bucket actually joined is determined
by reassigning the size to each matching anchor in key-insertion order.
Otherwise it opens a new bucket, placed at the end of the insertion order
and keyed by the disk's truncated integer size. -/
theorem C4_amended (ds : List Disk) (d : Disk) :
    ((∀ k ∈ (pdisks_by_size ds).map Prod.fst, (k : ℚ) + 10 ≤ d.size) →
      pdisks_by_size (ds ++ [d]) =
        pdisks_by_size ds ++ [(pyInt d.size, [d])]) ∧
    ((∃ k ∈ (pdisks_by_size ds).map Prod.fst, d.size < (k : ℚ) + 10) →
      (pdisks_by_size (ds ++ [d])).map Prod.fst =
        (pdisks_by_size ds).map Prod.fst) := by
  have hstep : pdisks_by_size (ds ++ [d]) =
      bucketStep (pdisks_by_size ds) d := by
    rw [pdisks_by_size, List.foldl_append]
    rfl
  constructor
  · intro hfar
    rw [hstep, bucketStep, bucketFit_of_far d.size _ hfar]
    apply addToBucket_fresh
    intro k hk
    have h1 := hfar k hk
    have h2 : k + 10 ≤ pyInt d.size := le_pyInt (by push_cast; linarith)
    omega
  · intro hjoin
    obtain ⟨k', hk', heq⟩ := bucketFit_join d.size _ hjoin
    rw [hstep, bucketStep, heq, pyInt_intCast]
    exact addToBucket_keys d _ k' hk'

/-- Witness for `C4_amended`: a 105-sized disk (within 10 above the anchor
100) joins the existing bucket, keeping the key set unchanged. -/
theorem C4_witness :
    (pdisks_by_size [⟨"pdA", "c0", "Ready", ((100 : ℤ) : ℚ)⟩,
        ⟨"pdB", "c0", "Ready", ((105 : ℤ) : ℚ)⟩]).map Prod.fst =
      (pdisks_by_size [⟨"pdA", "c0", "Ready", ((100 : ℤ) : ℚ)⟩]).map
        Prod.fst := by
  refine (C4_amended [⟨"pdA", "c0", "Ready", ((100 : ℤ) : ℚ)⟩]
    ⟨"pdB", "c0", "Ready", ((105 : ℤ) : ℚ)⟩).2 ⟨100, ?_, ?_⟩
  · simp +decide only [pdisks_by_size, List.foldl_cons, List.foldl_nil,
      bucketStep, bucketFit, addToBucket, pyInt_intCast, List.map]
  · show ((105 : ℤ) : ℚ) < ((100 : ℤ) : ℚ) + 10
    norm_num

/-! ## Claim C3: the default profile -/

/-- Claim C3, counterexample: five disks of pairwise distinct sizes 104,
103, 102, 101, 100 (listed in that, descending, order) all fall into the
single bucket anchored at 104, because each later disk's size is below the
anchor and the signed test `int(size - 104) < 10` accepts it.  The default
profile then builds `system` from the 2 *largest* disks, `data` from the
first 4 disks (overlapping `system`), and uses the *smallest* disk as
hotspare — contradicting the claimed layout (RAID1 over the 2 smallest,
disjoint groups, hotspare the largest). -/
theorem C3_counterexample :
    set_profile_default
        [⟨"pd1", "c0", "Ready", ((104 : ℤ) : ℚ)⟩,
         ⟨"pd2", "c0", "Ready", ((103 : ℤ) : ℚ)⟩,
         ⟨"pd3", "c0", "Ready", ((102 : ℤ) : ℚ)⟩,
         ⟨"pd4", "c0", "Ready", ((101 : ℤ) : ℚ)⟩,
         ⟨"pd5", "c0", "Ready", ((100 : ℤ) : ℚ)⟩] =
      some { systemDisks := [⟨"pd1", "c0", "Ready", ((104 : ℤ) : ℚ)⟩,
                             ⟨"pd2", "c0", "Ready", ((103 : ℤ) : ℚ)⟩],
             dataDisks := [⟨"pd1", "c0", "Ready", ((104 : ℤ) : ℚ)⟩,
                           ⟨"pd2", "c0", "Ready", ((103 : ℤ) : ℚ)⟩,
                           ⟨"pd3", "c0", "Ready", ((102 : ℤ) : ℚ)⟩,
                           ⟨"pd4", "c0", "Ready", ((101 : ℤ) : ℚ)⟩],
             hspare := ⟨"pd5", "c0", "Ready", ((100 : ℤ) : ℚ)⟩,
             controller := "c0" } ∧
    ([((104 : ℤ) : ℚ), ((103 : ℤ) : ℚ), ((102 : ℤ) : ℚ), ((101 : ℤ) : ℚ),
      ((100 : ℤ) : ℚ)] : List ℚ).Pairwise (· ≠ ·) ∧
    ¬ ([⟨"pd1", "c0", "Ready", ((104 : ℤ) : ℚ)⟩,
        ⟨"pd2", "c0", "Ready", ((103 : ℤ) : ℚ)⟩] : List Disk).Disjoint
        [⟨"pd1", "c0", "Ready", ((104 : ℤ) : ℚ)⟩,
         ⟨"pd2", "c0", "Ready", ((103 : ℤ) : ℚ)⟩,
         ⟨"pd3", "c0", "Ready", ((102 : ℤ) : ℚ)⟩,
         ⟨"pd4", "c0", "Ready", ((101 : ℤ) : ℚ)⟩] ∧
    ((100 : ℤ) : ℚ) < ((104 : ℤ) : ℚ) := by
  refine ⟨?_, ?_, ?_, by norm_num⟩
  · simp +decide only [set_profile_default, select_pdisks, pdisks_by_size,
      List.foldl_cons, List.foldl_nil, bucketStep, bucketFit, addToBucket,
      pyInt_intCast, pyInt_sub_intCast, sortKeys, insertSorted, alookup,
      List.map, List.foldr, List.head?, List.getLast?, List.getLast,
      List.dropLast, List.take, Option.map, Option.bind, bind, pure, if_true,
      if_false, List.cons_append, List.nil_append, List.singleton_append]
  · norm_num [List.pairwise_cons]
  · intro hdisj
    exact hdisj (List.mem_cons_self _ _) (List.mem_cons_self _ _)

/-- Claim C3, amended: given 5 physical disks of arbitrary (rational,
pairwise distinct) numeric sizes listed in ascending order that cluster
into a small group and a large group relative to the truncated bucket
anchors — the second size less than 10 units above the truncated first
size, the third size at least 10 units above the truncated first size, and
the fourth and fifth sizes less than 10 units above the truncated third
size — the default profile creates one RAID1 virtual disk from the 2
smallest disks, one RAID5 virtual disk from 2 of the remaining 3, and one
hotspare assignment using the single largest disk; the three disk groups
are pairwise disjoint and their union is all 5 disks.  (The truncated
anchors are what the code compares against: the bucket keys are `int(...)`
values, so e.g. a second size of 110.25 over a first size of 100.5 fails
the clustering condition — `int(110.25 - 100)` is 10 — and the layout does
not arise.) -/
theorem C3_amended (s1 s2 s3 s4 s5 : ℚ)
    (_h12 : s1 < s2) (_h23 : s2 < s3) (h34 : s3 < s4) (h45 : s4 < s5)
    (hc1 : s2 < (pyInt s1 : ℚ) + 10) (hgap : (pyInt s1 : ℚ) + 10 ≤ s3)
    (hc2 : s4 < (pyInt s3 : ℚ) + 10) (hc3 : s5 < (pyInt s3 : ℚ) + 10) :
    set_profile_default
        [⟨"pd1", "c0", "Ready", s1⟩, ⟨"pd2", "c0", "Ready", s2⟩,
         ⟨"pd3", "c0", "Ready", s3⟩, ⟨"pd4", "c0", "Ready", s4⟩,
         ⟨"pd5", "c0", "Ready", s5⟩] =
      some { systemDisks := [⟨"pd1", "c0", "Ready", s1⟩,
                             ⟨"pd2", "c0", "Ready", s2⟩],
             dataDisks := [⟨"pd3", "c0", "Ready", s3⟩,
                           ⟨"pd4", "c0", "Ready", s4⟩],
             hspare := ⟨"pd5", "c0", "Ready", s5⟩,
             controller := "c0" } ∧
    ([⟨"pd1", "c0", "Ready", s1⟩, ⟨"pd2", "c0", "Ready", s2⟩] ++
        [⟨"pd3", "c0", "Ready", s3⟩, ⟨"pd4", "c0", "Ready", s4⟩] ++
        [⟨"pd5", "c0", "Ready", s5⟩] : List Disk) =
      [⟨"pd1", "c0", "Ready", s1⟩, ⟨"pd2", "c0", "Ready", s2⟩,
       ⟨"pd3", "c0", "Ready", s3⟩, ⟨"pd4", "c0", "Ready", s4⟩,
       ⟨"pd5", "c0", "Ready", s5⟩] ∧
    ([⟨"pd1", "c0", "Ready", s1⟩, ⟨"pd2", "c0", "Ready", s2⟩,
      ⟨"pd3", "c0", "Ready", s3⟩, ⟨"pd4", "c0", "Ready", s4⟩,
      ⟨"pd5", "c0", "Ready", s5⟩] : List Disk).Nodup := by
  have hk : pyInt s1 + 10 ≤ pyInt s3 := le_pyInt (by push_cast; linarith)
  have f21 : pyInt (s2 - (pyInt s1 : ℚ)) < 10 := by
    rw [pyInt_lt_ten]; linarith
  have f31 : ¬ pyInt (s3 - (pyInt s1 : ℚ)) < 10 := by
    rw [pyInt_lt_ten, not_lt]; linarith
  have f41 : ¬ pyInt (s4 - (pyInt s1 : ℚ)) < 10 := by
    rw [pyInt_lt_ten, not_lt]; linarith
  have f43 : pyInt (s4 - (pyInt s3 : ℚ)) < 10 := by
    rw [pyInt_lt_ten, sub_lt_iff_lt_add, add_comm]; exact hc2
  have f51 : ¬ pyInt (s5 - (pyInt s1 : ℚ)) < 10 := by
    rw [pyInt_lt_ten, not_lt]; linarith
  have f53 : pyInt (s5 - (pyInt s3 : ℚ)) < 10 := by
    rw [pyInt_lt_ten]; linarith
  have e13 : ¬ (pyInt s1 = pyInt s3) := by omega
  have e31 : ¬ (pyInt s3 = pyInt s1) := by omega
  have le13 : pyInt s1 ≤ pyInt s3 := by omega
  refine ⟨?_, rfl, ?_⟩
  · simp only [set_profile_default, select_pdisks, pdisks_by_size,
      List.foldl_cons, List.foldl_nil, bucketStep, bucketFit, addToBucket,
      pyInt_intCast, sortKeys, insertSorted, alookup,
      List.map, List.foldr, List.head?, List.getLast?, List.getLast,
      List.dropLast, List.take, Option.map, Option.bind, bind, pure, if_true,
      if_false, List.cons_append, List.nil_append, List.singleton_append,
      eq_self_iff_true, f21, f31, f41, f43, f51, f53, e13, e31, le13]
  · simp [List.nodup_cons, Disk.mk.injEq]

/-- Witness for `C3_amended` at sizes 100, 105, 500, 505, 509. -/
theorem C3_witness :
    set_profile_default
        [⟨"pd1", "c0", "Ready", ((100 : ℤ) : ℚ)⟩,
         ⟨"pd2", "c0", "Ready", ((105 : ℤ) : ℚ)⟩,
         ⟨"pd3", "c0", "Ready", ((500 : ℤ) : ℚ)⟩,
         ⟨"pd4", "c0", "Ready", ((505 : ℤ) : ℚ)⟩,
         ⟨"pd5", "c0", "Ready", ((509 : ℤ) : ℚ)⟩] =
      some { systemDisks := [⟨"pd1", "c0", "Ready", ((100 : ℤ) : ℚ)⟩,
                             ⟨"pd2", "c0", "Ready", ((105 : ℤ) : ℚ)⟩],
             dataDisks := [⟨"pd3", "c0", "Ready", ((500 : ℤ) : ℚ)⟩,
                           ⟨"pd4", "c0", "Ready", ((505 : ℤ) : ℚ)⟩],
             hspare := ⟨"pd5", "c0", "Ready", ((509 : ℤ) : ℚ)⟩,
             controller := "c0" } :=
  (C3_amended ((100 : ℤ) : ℚ) ((105 : ℤ) : ℚ) ((500 : ℤ) : ℚ)
    ((505 : ℤ) : ℚ) ((509 : ℤ) : ℚ) (by norm_num) (by norm_num) (by norm_num)
    (by norm_num) (by rw [pyInt_intCast]; norm_num)
    (by rw [pyInt_intCast]; norm_num) (by rw [pyInt_intCast]; norm_num)
    (by rw [pyInt_intCast]; norm_num)).1
